import Mathlib

/-!
Verification of the Hack-The-Track telemetry replay backend.

The definitions below are a shallow embedding of the Python sources:

* `directional_filter` embeds `directional_filter` from
  `src/telemetry-server/preprocess_telemetry.py` (lines 35-62) and its
  identical copy in `src/main.py` (lines 185-213).  A per-vehicle dataframe
  is modelled as a `List Row`; `pandas.sort_values("meta_time")` is modelled
  by the stable `List.mergeSort` on the timestamp; the planar projection
  `latlon_to_xy` (equirectangular, using `log`/`tan` on floats) is kept
  abstract as a parameter `proj : ℚ → ℚ → Pt`, so every theorem holds for
  the projection actually used by the code.
* The playback-control state machine embeds `process_telemetry_control`
  from `src/main.py` (lines 678-732).
* The broadcast tick embeds one iteration of `telemetry_broadcast_loop`
  from `src/main.py` (lines 571-675): simulated-time computation, binary
  search windowing, rate limiting, frame assembly with deduplication, and
  the end-of-stream transition.  Weather sampling (lines 606-610, 650-659)
  is omitted: it never affects the vehicles portion of a frame, the frame
  timestamps, or the end-of-stream events that the claims are about.
-/

/-! ### Rows and timestamp ordering -/

/-- One row of a per-vehicle dataframe in the preprocessing pipeline:
`meta_time`, `telemetry_name`, `telemetry_value`. -/
structure Row where
  time : ℚ
  name : String
  value : ℚ
deriving DecidableEq, Inhabited

/-- The comparison used by `df.sort_values("meta_time")`. -/
def rowLE (a b : Row) : Bool := decide (a.time ≤ b.time)

/-- `df.sort_values("meta_time")`, modelled with the stable merge sort.
Pandas' default `kind='quicksort'` does not guarantee the order of rows
with equal `meta_time`, so this is one admissible determinization; a
statement whose truth depends on the tie order is settled against
`directional_filter_with`, which takes the sorting function as a
parameter, rather than against this fixed choice. -/
def sortByTime (l : List Row) : List Row := l.mergeSort rowLE

/-- `telemetry_name == "VBOX_Lat_Min"`. -/
def isLat (r : Row) : Bool := r.name == "VBOX_Lat_Min"

/-- `telemetry_name == "VBOX_Long_Minutes"`. -/
def isLon (r : Row) : Bool := r.name == "VBOX_Long_Minutes"

/-- `~df["telemetry_name"].isin(["VBOX_Lat_Min", "VBOX_Long_Minutes"])`. -/
def isOther (r : Row) : Bool := !(isLat r) && !(isLon r)

/-! ### Planar points and the directional filter -/

/-- A projected planar position, as returned by `latlon_to_xy`. -/
abbrev Pt := ℚ × ℚ

/-- Componentwise difference of projected points (`p2 - p1` on numpy arrays). -/
def subPt (a b : Pt) : Pt := (a.1 - b.1, a.2 - b.2)

/-- `np.dot` on two planar points. -/
def dotPt (a b : Pt) : ℚ := a.1 * b.1 + a.2 * b.2

/-- One iteration of the `for i in range(3, len(lat_rows))` loop of
`directional_filter`.  The accumulator holds `filtered_indices` in reverse,
so its head is `filtered_indices[-1]` (the last accepted index, the code's
`p2`) and the second entry is `filtered_indices[-2]` (the code's `p1`).
The candidate `i` is appended iff `np.dot(p2 - p1, p3 - p2) > 0`.
(The code also computes `p0` from `filtered_indices[-3]` but never uses it.) -/
def dirUpdate (pts : List Pt) (acc : List Nat) (i : Nat) : List Nat :=
  match acc with
  | i1 :: i2 :: _ =>
    if 0 < dotPt (subPt (pts.getD i1 (0, 0)) (pts.getD i2 (0, 0)))
                 (subPt (pts.getD i (0, 0)) (pts.getD i1 (0, 0)))
    then i :: acc else acc
  | _ => acc

/-- `filtered_indices` after the whole loop: starts as `[0, 1, 2]` and scans
candidates `3, 4, …, len(lat_rows) - 1` in order. -/
def filteredIndices (pts : List Pt) : List Nat :=
  ((List.range' 3 (pts.length - 3)).foldl (dirUpdate pts) [2, 1, 0]).reverse

/-- `directional_filter(df)` from `preprocess_telemetry.py` / `main.py`,
parametrised by the planar projection `proj` (the code's `latlon_to_xy`).
The function sorts by `meta_time`, pairs the i-th latitude row with the i-th
longitude row, runs the index-selection loop, and reassembles
`[lat_filtered, lon_filtered, others]` sorted by `meta_time`; on a
lat/lon count mismatch or fewer than three pairs it returns the sorted
dataframe unchanged. -/
def directional_filter (proj : ℚ → ℚ → Pt) (df : List Row) : List Row :=
  let s := sortByTime df
  let lat := s.filter isLat
  let lon := s.filter isLon
  if lat.length = lon.length ∧ 3 ≤ lat.length then
    let pts := (lat.zip lon).map (fun q => proj q.1.value q.2.value)
    let idxs := filteredIndices pts
    let latF := idxs.map (fun i => lat.getD i default)
    let lonF := idxs.map (fun i => lon.getD i default)
    sortByTime (latF ++ lonF ++ s.filter isOther)
  else s

/-! ### Specification-side rendering of the selection loop

`dirSelectPairs` states the selection rule the way the specification
describes it (on the stream of candidate pairs, carrying the last two
accepted projected points), with the comparison the code actually performs:
a candidate is kept iff the dot product is strictly positive. -/

/-- The projected point of one lat/lon row pair. -/
def projP (proj : ℚ → ℚ → Pt) (rl : Row × Row) : Pt := proj rl.1.value rl.2.value

/-- Direction test on the remaining candidates, carrying the projected
points `p2` (last-accepted-but-one) and `p1` (last accepted): a candidate
`rl` is kept iff `dot (p1 - p2) (proj rl - p1) > 0`. -/
def dirSelectPairs (proj : ℚ → ℚ → Pt) (p2 p1 : Pt) : List (Row × Row) → List (Row × Row)
  | [] => []
  | rl :: rest =>
    if 0 < dotPt (subPt p1 p2) (subPt (projP proj rl) p1)
    then rl :: dirSelectPairs proj p1 (projP proj rl) rest
    else dirSelectPairs proj p2 p1 rest

/-- The kept lat/lon pairs: the first three pairs unconditionally, then the
direction test against the last two accepted points. -/
def keptPairs (proj : ℚ → ℚ → Pt) : List (Row × Row) → List (Row × Row)
  | a :: b :: c :: rest =>
    a :: b :: c :: dirSelectPairs proj (projP proj b) (projP proj c) rest
  | short => short

/-- The directional filter as the specification words it (with the
comparison corrected to the strict one the code performs): sort by time,
keep the first three position pairs, keep each later candidate iff the
direction dot product is strictly positive, leave non-position rows alone,
and re-sort; a no-op (up to the initial time sort) when the lat/lon counts
mismatch or fewer than three pairs exist. -/
def directional_filter_spec (proj : ℚ → ℚ → Pt) (df : List Row) : List Row :=
  let s := sortByTime df
  let lat := s.filter isLat
  let lon := s.filter isLon
  if lat.length = lon.length ∧ 3 ≤ lat.length then
    let kept := keptPairs proj (lat.zip lon)
    sortByTime (kept.map Prod.fst ++ kept.map Prod.snd ++ s.filter isOther)
  else s

/-- Index-level rendering of the selection recursion, used to relate the
`foldl` over `filtered_indices` to `dirSelectPairs`. -/
def dirSelectIdx (pts : List Pt) (i2 i1 : Nat) : List Nat → List Nat
  | [] => []
  | i :: rest =>
    if 0 < dotPt (subPt (pts.getD i1 (0, 0)) (pts.getD i2 (0, 0)))
                 (subPt (pts.getD i (0, 0)) (pts.getD i1 (0, 0)))
    then i :: dirSelectIdx pts i1 i rest
    else dirSelectIdx pts i2 i1 rest

/-- The identity projection, used to instantiate counterexamples.  The dot
products in those counterexamples involve a repeated position fix, so they
are zero under every projection, in particular under `latlon_to_xy`. -/
def projId : ℚ → ℚ → Pt := fun a b => (a, b)

/-! ### Telemetry samples, value casting and frame assembly -/

/-- A raw `telemetry_value` as it sits in a loaded record: a number, a
missing value (`NaN`, for which `pd.isna` is true), or an unparsable value
(one on which `float()` raises). -/
inductive RVal where
  | num (q : ℚ)
  | nan
  | str (s : String)
deriving DecidableEq, Inhabited

/-- Result of `cast_num` (`src/main.py` lines 146-153): `None` for missing
values, the float for numbers, and the original object unchanged when
`float(x)` raises. -/
inductive CVal where
  | cnull
  | cnum (q : ℚ)
  | craw (s : String)
deriving DecidableEq, Inhabited

/-- `cast_num(x)`: `pd.isna(x) ⇒ None`; otherwise `float(x)`; on exception
the argument is returned unchanged. -/
def cast_num : RVal → CVal
  | .nan => .cnull
  | .num q => .cnum q
  | .str s => .craw s

/-- Python `int()` on a float: truncation toward zero. -/
def pyInt (q : ℚ) : ℤ := if 0 ≤ q then q.floor else -((-q).floor)

/-- A value as it appears in an emitted frame. `err` marks the cases where
line 640 of `src/main.py` would raise (`int(None)` or `int` of an
unparsable value on the `lap` channel). -/
inductive EVal where
  | null
  | float (q : ℚ)
  | int (z : ℤ)
  | raw (s : String)
  | err
deriving DecidableEq, Inhabited

/-- The value stored into the frame for channel `name`
(`src/main.py` line 640: `int(value) if name == "lap" else value`, with
`value = cast_num(r["telemetry_value"])`). -/
def emitVal (name : String) (v : RVal) : EVal :=
  match cast_num v with
  | .cnull => if name == "lap" then .err else .null
  | .cnum q => if name == "lap" then .int (pyInt q) else .float q
  | .craw s => if name == "lap" then .err else .raw s

/-- `field_mapping` (`src/main.py` lines 624-627). -/
def mapName (n : String) : String :=
  if n == "VBOX_Lat_Min" then "gps_lat"
  else if n == "VBOX_Long_Minutes" then "gps_lon"
  else n

/-- One loaded telemetry record (`meta_time`, `vehicle_id`,
`telemetry_name`, `telemetry_value`). -/
structure TRow where
  time : ℚ
  vid : String
  name : String
  value : RVal
deriving DecidableEq, Inhabited

/-- The deduplication key `(ts, vid, r["telemetry_name"])` of line 632. -/
def rkey (r : TRow) : ℚ × String × String := (r.time, r.vid, r.name)

/-- The `seen`-set loop of `src/main.py` lines 629-640: rows whose key was
already seen are skipped, first occurrences are kept in order. -/
def dedupRows : List TRow → List (ℚ × String × String) → List TRow
  | [], _ => []
  | r :: rest, seen =>
    if rkey r ∈ seen then dedupRows rest seen
    else r :: dedupRows rest (rkey r :: seen)

/-- First occurrences in encounter order, carrying the set of timestamps
already seen. -/
def uniqueFirstAux : List ℚ → List ℚ → List ℚ
  | [], _ => []
  | t :: rest, seen =>
    if t ∈ seen then uniqueFirstAux rest seen
    else t :: uniqueFirstAux rest (t :: seen)

/-- First occurrences of each timestamp, in encounter order: the key order
of the insertion-ordered dict `frame`. -/
def uniqueFirst (l : List ℚ) : List ℚ := uniqueFirstAux l []

/-- One emitted `telemetry_frame`: the timestamp and the
`(vehicle_id, mapped channel name, value)` assignments made for it. -/
structure Frame where
  timestamp : ℚ
  entries : List (String × String × EVal)
deriving DecidableEq, Inhabited

/-- The frame assembled for one timestamp from the deduplicated batch. -/
def frameFor (survivors : List TRow) (ts : ℚ) : Frame :=
  ⟨ts, (survivors.filter (fun r => r.time == ts)).map
        (fun r => (r.vid, mapName r.name, emitVal r.name r.value))⟩

/-- Frame assembly for one batch `to_emit` (`src/main.py` lines 620-648):
deduplicate by `(ts, vid, name)`, then group by timestamp in insertion
order. -/
def buildFrames (batch : List TRow) : List Frame :=
  let survivors := dedupRows batch []
  (uniqueFirst (survivors.map (fun r => r.time))).map (frameFor survivors)

/-- A message delivered to the telemetry stream cache/subscribers. -/
inductive Msg where
  | frame (f : Frame)
  | endOfStream (timestamp : ℚ)
deriving DecidableEq, Inhabited

/-- The timestamp a message carries. -/
def msgTime : Msg → ℚ
  | .frame f => f.timestamp
  | .endOfStream t => t

/-- Whether a message is the terminal `telemetry_end` event. -/
def isEndMsg : Msg → Bool
  | .endOfStream _ => true
  | .frame _ => false

/-! ### Playback state and control commands -/

/-- The module-level playback state of `src/main.py` (the
`telemetry_*` globals), with wall-clock instants and simulated timestamps
both modelled as rationals. -/
structure PState where
  is_paused : Bool
  is_reversed : Bool
  has_started : Bool
  speed : ℚ
  master_start_time : Option ℚ
  start_timestamp : ℚ
  rows : List TRow
  pending : List TRow
  current_index : Nat
  last_send : ℚ
deriving DecidableEq, Inhabited

/-- An inbound control command (`{cmd, value?, timestamp?}`), with `seek`
carrying the already-parsed timestamp and `speed` the parsed float. -/
inductive Cmd where
  | play
  | reverse
  | restart
  | pause
  | speed (v : ℚ)
  | seek (t : ℚ)
  | unknown (c : String)
deriving DecidableEq, Inhabited

/-- `process_telemetry_control` (`src/main.py` lines 678-732) at wall time
`now`.  Notes on the faithful edge cases:
* `restart` on an empty `telemetry_rows` raises `IndexError` at line 708
  (`telemetry_rows[0]`) *after* lines 705-707 have already mutated the
  globals; the resulting global state keeps that partial mutation — in
  particular the wall anchor is left as it was, not cleared — which is
  what the empty-rows branch below returns;
* `pause` while not paused with a `None` anchor raises `TypeError` at
  line 714 *before* any assignment, so the globals are unchanged — the
  `none` branch below;
* the `speed` branch guards on the Python truthiness of
  `telemetry_master_start_time`, which is falsy both for `None` and for
  the wall instant `0.0`. -/
def process_telemetry_control (now : ℚ) (st : PState) : Cmd → PState
  | .play =>
    let st1 :=
      if !st.has_started then
        if st.rows.isEmpty then { st with has_started := true }
        else { st with has_started := true,
                       start_timestamp := (st.rows.headD default).time,
                       pending := st.rows }
      else st
    if st1.is_paused then
      { st1 with is_paused := false, is_reversed := false,
                 master_start_time := some now }
    else st1
  | .reverse =>
    if st.is_paused && st.has_started then
      { st with is_paused := false, is_reversed := true,
                master_start_time := some now }
    else st
  | .restart =>
    if st.rows.isEmpty then
      { st with is_paused := true, is_reversed := false, has_started := true }
    else
      { st with is_paused := true, is_reversed := false, has_started := true,
                start_timestamp := (st.rows.headD default).time,
                pending := st.rows, master_start_time := none }
  | .pause =>
    if !st.is_paused then
      match st.master_start_time with
      | some m =>
        let delta := if st.is_reversed then -(now - m) * st.speed
                     else (now - m) * st.speed
        { st with start_timestamp := st.start_timestamp + delta,
                  is_paused := true, master_start_time := none }
      | none => st
    else st
  | .speed v =>
    let st1 :=
      match st.master_start_time with
      | some m =>
        if !st.is_paused && m != 0 then
          let delta := if st.is_reversed then -(now - m) * st.speed
                       else (now - m) * st.speed
          { st with start_timestamp := st.start_timestamp + delta,
                    master_start_time := some now }
        else st
      | none => st
    { st1 with speed := v }
  | .seek t =>
    { st with start_timestamp := t, master_start_time := some now }
  | .unknown _ => st

/-- Simulated time as the broadcast loop computes it (`src/main.py` lines
589-591): while playing, `anchor + (±(now - master) * speed)`; while
paused (or with no anchor) the loop performs no windowing, so simulated
time rests at the folded anchor. -/
def simTime (st : PState) (now : ℚ) : ℚ :=
  if st.is_paused then st.start_timestamp
  else
    match st.master_start_time with
    | some m =>
      st.start_timestamp +
        (if st.is_reversed then -(now - m) * st.speed else (now - m) * st.speed)
    | none => st.start_timestamp

/-! ### The broadcast tick -/

/-- `bisect.bisect_left(timestamps, x)` on a time-sorted list: the number
of elements strictly below `x`. -/
def bisectLeft (l : List ℚ) (x : ℚ) : Nat := l.countP (fun t => decide (t < x))

/-- `bisect.bisect_right(timestamps, x, lo)` on a time-sorted list:
`lo` plus the number of remaining elements at most `x`. -/
def bisectRightFrom (l : List ℚ) (x : ℚ) (lo : Nat) : Nat :=
  lo + (l.drop lo).countP (fun t => decide (t ≤ x))

/-- `send_interval = 1.0 / target_hz` with `target_hz = 60`. -/
def sendInterval : ℚ := 1 / 60

/-- One iteration of the `while True` body of `telemetry_broadcast_loop`
(`src/main.py` lines 571-675) at wall time `now`, returning the updated
state and the messages cached for subscribers this tick.  Structure:
paused/zero-speed ticks only sleep; a `None` anchor is re-initialised to
`now` (resetting the forward cursor); windowing picks `to_emit` by binary
search and advances the cursor *before* the rate-limit check, so a
rate-limited tick discards its batch; an empty batch ends the tick; the
end-of-stream branch runs only after a non-empty emission.  In that end
branch, lines 669-672 only *construct* the `telemetry_end` dict `end_msg`:
it is never assigned to `telemetry_cache` (only frames are, at line 662)
and never sent, so the branch's sole observable effect on the message
stream is nothing — it just pauses the clock and clears the anchor. -/
def tick (now : ℚ) (g0 : PState) : PState × List Msg :=
  if g0.is_paused || g0.speed == 0 then (g0, [])
  else
    let g1 :=
      match g0.master_start_time with
      | none =>
        if g0.is_reversed then { g0 with master_start_time := some now }
        else { g0 with master_start_time := some now,
                       current_index := 0, pending := g0.rows }
      | some _ => g0
    let m := g1.master_start_time.getD now
    let delta := if g1.is_reversed then -(now - m) * g1.speed
                 else (now - m) * g1.speed
    let sim := g1.start_timestamp + delta
    let times := g1.rows.map (fun r => r.time)
    let step :=
      if g1.is_reversed then
        let idx := bisectLeft times sim
        ({ g1 with pending := g1.rows.take idx }, g1.rows.drop idx)
      else
        let endIdx := bisectRightFrom times sim g1.current_index
        ({ g1 with current_index := endIdx, pending := g1.rows.drop endIdx },
         (g1.rows.drop g1.current_index).take (endIdx - g1.current_index))
    let g2 := step.1
    let toEmit := step.2
    if now - g2.last_send < sendInterval then (g2, [])
    else
      let g3 := { g2 with last_send := now }
      if toEmit.isEmpty then (g3, [])
      else
        let msgs := (buildFrames toEmit).map Msg.frame
        if (g3.pending.isEmpty && !g3.is_reversed) ||
           (toEmit.isEmpty && g3.is_reversed) then
          ({ g3 with is_paused := true, master_start_time := none }, msgs)
        else (g3, msgs)

/-! ### The standalone vehicle server's broadcast tick

`src/telemetry-server/telemetry_vehicle_server.py` duplicates the loop
with three observable differences: windowing is done with list
comprehensions over `pending_rows`/`rows` (no `current_index`), frames
are built without the `field_mapping` rename, and the end branch actually
*sends* `end_msg` to every client and then sets the shutdown event and
`break`s out of the loop. -/

/-- The module-level playback state of `telemetry_vehicle_server.py`
used by its `broadcast_loop` (that server keeps no forward cursor). -/
structure VState where
  is_paused : Bool
  is_reversed : Bool
  has_started : Bool
  speed : ℚ
  master_start_time : Option ℚ
  start_timestamp : ℚ
  rows : List TRow
  pending : List TRow
  last_send : ℚ
deriving DecidableEq, Inhabited

/-- The frame for one timestamp in the vehicle server (lines 113-125):
no `field_mapping`, the raw `telemetry_name` is the key. -/
def frameForVehicle (survivors : List TRow) (ts : ℚ) : Frame :=
  ⟨ts, (survivors.filter (fun r => r.time == ts)).map
        (fun r => (r.vid, r.name, emitVal r.name r.value))⟩

/-- Frame assembly in the vehicle server: same `seen`-set deduplication
and insertion-ordered grouping, unmapped channel names. -/
def buildFramesVehicle (batch : List TRow) : List Frame :=
  let survivors := dedupRows batch []
  (uniqueFirst (survivors.map (fun r => r.time))).map (frameForVehicle survivors)

/-- One iteration of the `while True` body of `broadcast_loop` in
`telemetry_vehicle_server.py` (lines 78-163) at wall time `now`: the
updated state, the messages sent to clients, and whether the loop sets the
shutdown event and `break`s (lines 160-163).  Windowing filters the whole
`pending_rows` (forward) or `rows` (reverse) lists; the end branch sends
exactly one `telemetry_end` and halts the loop. -/
def tickVehicle (now : ℚ) (g0 : VState) : VState × List Msg × Bool :=
  if g0.is_paused || g0.speed == 0 then (g0, [], false)
  else
    let g1 :=
      match g0.master_start_time with
      | none => { g0 with master_start_time := some now }
      | some _ => g0
    let m := g1.master_start_time.getD now
    let delta := if g1.is_reversed then -(now - m) * g1.speed
                 else (now - m) * g1.speed
    let sim := g1.start_timestamp + delta
    let step :=
      if g1.is_reversed then
        ({ g1 with pending := g1.rows.filter (fun r => decide (r.time < sim)) },
         g1.rows.filter (fun r => decide (r.time ≥ sim)))
      else
        ({ g1 with pending := g1.pending.filter (fun r => decide (r.time > sim)) },
         g1.pending.filter (fun r => decide (r.time ≤ sim)))
    let g2 := step.1
    let toEmit := step.2
    if now - g2.last_send < sendInterval then (g2, [], false)
    else
      let g3 := { g2 with last_send := now }
      if toEmit.isEmpty then (g3, [], false)
      else
        let msgs := (buildFramesVehicle toEmit).map Msg.frame
        if (g3.pending.isEmpty && !g3.is_reversed) ||
           (toEmit.isEmpty && g3.is_reversed) then
          ({ g3 with is_paused := true, master_start_time := none },
           msgs ++ [Msg.endOfStream sim], true)
        else (g3, msgs, false)

/-! ### The directional filter over an arbitrary sorting function

`df.sort_values("meta_time")` (pandas default `kind='quicksort'`) fixes
only that the result is a permutation ordered by `meta_time`; the relative
order of rows with equal timestamps is unspecified.  `directional_filter_with`
is `directional_filter` with both `sort_values` call sites abstracted into
a parameter, so behavior under different admissible tie orders can be
compared; `directional_filter_with sortByTime` is definitionally
`directional_filter`. -/

/-- `directional_filter` with the sorting function as a parameter. -/
def directional_filter_with (sortFn : List Row → List Row)
    (proj : ℚ → ℚ → Pt) (df : List Row) : List Row :=
  let s := sortFn df
  let lat := s.filter isLat
  let lon := s.filter isLon
  if lat.length = lon.length ∧ 3 ≤ lat.length then
    let pts := (lat.zip lon).map (fun q => proj q.1.value q.2.value)
    let idxs := filteredIndices pts
    let latF := idxs.map (fun i => lat.getD i default)
    let lonF := idxs.map (fun i => lon.getD i default)
    sortFn (latF ++ lonF ++ s.filter isOther)
  else s

/-- Latitude row constructor for the concrete examples. -/
def mkLat (t v : ℚ) : Row := ⟨t, "VBOX_Lat_Min", v⟩

/-- Longitude row constructor for the concrete examples. -/
def mkLon (t v : ℚ) : Row := ⟨t, "VBOX_Long_Minutes", v⟩

/-- A per-vehicle dataframe whose second and third latitude rows share the
timestamp 1, so their relative order after `sort_values` is unspecified.
The projected track under the identity projection is (0,0), (1,0), (2,0),
(3,0) in the listed order. -/
def dfTied : List Row :=
  [mkLat 0 0, mkLat 1 1, mkLat 1 2, mkLat 3 3,
   mkLon 10 0, mkLon 11 0, mkLon 12 0, mkLon 13 0]

/-- `dfTied` with the two tied latitude rows in the other admissible
order; still sorted by timestamp and a permutation of `dfTied`. -/
def dfTiedSwapped : List Row :=
  [mkLat 0 0, mkLat 1 2, mkLat 1 1, mkLat 3 3,
   mkLon 10 0, mkLon 11 0, mkLon 12 0, mkLon 13 0]

/-- An admissible realisation of `sort_values`: on `dfTied` it returns the
other tie order, on every other list it coincides with `sortByTime`.
Every value it returns is a timestamp-sorted permutation of its input
(`oddSort_valid`), so an unstable `sort_values` is free to behave like
this. -/
def oddSort (l : List Row) : List Row :=
  if l = dfTied then dfTiedSwapped else sortByTime l

/-! ### Claim-side predicates and concrete example inputs -/

/-- The control commands the specification calls inapplicable: an unknown
`cmd`, `play` while already started and playing, `reverse` while not
paused or not started, `pause` while already paused. -/
def Inapplicable (st : PState) : Cmd → Prop
  | .unknown _ => True
  | .play => st.has_started = true ∧ st.is_paused = false
  | .reverse => st.is_paused = false ∨ st.has_started = false
  | .pause => st.is_paused = true
  | _ => False

/-- The specification's `PlaybackState` invariant: the wall anchor is
non-null iff actively playing, and the speed is non-negative. -/
def StateInv (st : PState) : Prop :=
  (st.master_start_time ≠ none ↔ st.is_paused = false) ∧ 0 ≤ st.speed

/-- The side condition under which a command does preserve `StateInv`:
`seek` must arrive while playing, `speed` must carry a non-negative value,
`restart` must find a non-empty sample list (or a paused state, whose
anchor is already clear); the remaining commands preserve it
unconditionally. -/
def PreservesOK (st : PState) : Cmd → Prop
  | .seek _ => st.is_paused = false
  | .speed v => 0 ≤ v
  | .restart => st.rows ≠ [] ∨ st.is_paused = true
  | _ => True

/-- Four lat/lon pairs whose projected track is (0,0), (1,0), (2,0), (2,0):
the fourth candidate repeats the third fix, so its direction dot product is
zero under every projection. -/
def dfZeroDot : List Row :=
  [mkLat 0 0, mkLon 1 0, mkLat 2 1, mkLon 3 0,
   mkLat 4 2, mkLon 5 0, mkLat 6 2, mkLon 7 0]

/-- An unsorted dataframe with no position rows (zero lat/lon pairs). -/
def dfNoPos : List Row := [⟨1, "speed", 5⟩, ⟨0, "speed", 4⟩]

/-- A single telemetry record ending the stream in the tick examples. -/
def exRows1 : List TRow := [⟨0, "7", "speed", .num 10⟩]

/-- Two time-sorted telemetry records for the ordering examples. -/
def exRows2 : List TRow := [⟨0, "7", "speed", .num 10⟩, ⟨1, "7", "speed", .num 20⟩]

/-- A forward-playing state one tick away from the end of `exRows1`. -/
def gFwdEnd : PState :=
  { is_paused := false, is_reversed := false, has_started := true, speed := 1,
    master_start_time := some 0, start_timestamp := 0, rows := exRows1,
    pending := exRows1, current_index := 0, last_send := -1 }

/-- A reverse-playing state whose simulated time is already past every
sample, so its tick has no samples left to emit. -/
def gRevStuck : PState := { gFwdEnd with is_reversed := true, start_timestamp := 100 }

/-- A forward-playing state whose next tick is rate-limited while it
consumes the last pending sample. -/
def gFwdRateLimited : PState := { gFwdEnd with last_send := 1 - 1 / 120 }

/-- A vehicle-server state one forward tick away from the end of its data
(playing, anchored at wall time 0, all of `exRows1` still pending). -/
def vFwdEnd : VState :=
  { is_paused := false, is_reversed := false, has_started := true, speed := 1,
    master_start_time := some 0, start_timestamp := 0, rows := exRows1,
    pending := exRows1, last_send := -1 }

/-- A reverse-playing state over `exRows2` with simulated time below both
samples, so a tick re-emits the whole tail. -/
def gRevAsc : PState :=
  { is_paused := false, is_reversed := true, has_started := true, speed := 1,
    master_start_time := some 0, start_timestamp := 1, rows := exRows2,
    pending := [], current_index := 0, last_send := -1 }

/-- A batch with an exact duplicate key at its head. -/
def batchDup : List TRow :=
  [⟨0, "7", "speed", .num 10⟩, ⟨0, "7", "speed", .num 10⟩, ⟨1, "7", "speed", .num 20⟩]

/-- A paused state with a cleared anchor, satisfying `StateInv`. -/
def stPausedInit : PState :=
  { is_paused := true, is_reversed := false, has_started := true, speed := 1,
    master_start_time := none, start_timestamp := 10, rows := exRows1,
    pending := exRows1, current_index := 0, last_send := 0 }

/-- A playing, started state with the anchor at wall time 0. -/
def stPlaying : PState :=
  { is_paused := false, is_reversed := false, has_started := true, speed := 2,
    master_start_time := some 0, start_timestamp := 10, rows := exRows1,
    pending := exRows1, current_index := 0, last_send := 0 }

/-- A playing, started state whose telemetry rows list is empty, as when a
restart command arrives before the loader produced any rows. -/
def stPlayingEmpty : PState :=
  { is_paused := false, is_reversed := false, has_started := true, speed := 1,
    master_start_time := some 0, start_timestamp := 10, rows := [],
    pending := [], current_index := 0, last_send := 0 }

/-! ## Theorems

First the shared helper lemmas, then one theorem per claim (with its
witness or counterexample). -/

/-! ### Control commands: no-ops, invariants, simulated time -/

theorem inapplicable_is_noop_aux (now : ℚ) (st : PState) (c : Cmd)
    (h : Inapplicable st c) : process_telemetry_control now st c = st := by
  cases c with
  | play =>
    obtain ⟨h1, h2⟩ := h
    simp [process_telemetry_control, h1, h2]
  | reverse => rcases h with h | h <;> simp [process_telemetry_control, h]
  | restart => exact h.elim
  | pause =>
    have hp : st.is_paused = true := h
    simp [process_telemetry_control, hp]
  | speed v => exact h.elim
  | seek t => exact h.elim
  | unknown s => rfl

/-- C5: a control command whose `cmd` is unknown, or whose preconditions
are unmet (`play` while started and playing, `reverse` while not paused or
not started, `pause` while paused), leaves the playback state completely
unchanged; such commands are neither queued nor rejected with an error. -/
theorem claim_C5_inapplicable_commands_are_noops (now : ℚ) (st : PState) (c : Cmd)
    (h : Inapplicable st c) : process_telemetry_control now st c = st :=
  inapplicable_is_noop_aux now st c h

/-- Witness for C5: `play` sent to an already-playing state is a no-op. -/
theorem claim_C5_witness :
    process_telemetry_control 5 stPlaying Cmd.play = stPlaying :=
  claim_C5_inapplicable_commands_are_noops 5 stPlaying Cmd.play ⟨rfl, rfl⟩

/-- C2: simulated time is the stated pure function of the playback state
and the wall clock (anchor plus signed speed-scaled elapsed wall time while
playing, the anchor alone while paused), and a `pause` followed by a `play`
with no elapsed wall time preserves the simulated time. -/
theorem claim_C2_simtime_formula_and_pause_play_roundtrip
    (st : PState) (now m : ℚ)
    (hp : st.is_paused = false) (hm : st.master_start_time = some m)
    (hs : st.has_started = true) :
    simTime st now
      = st.start_timestamp
        + (if st.is_reversed then (-1 : ℚ) else 1) * st.speed * (now - m)
    ∧ simTime (process_telemetry_control now st .pause) now = simTime st now
    ∧ simTime (process_telemetry_control now
        (process_telemetry_control now st .pause) .play) now = simTime st now := by
  refine ⟨?_, ?_, ?_⟩
  · cases hr : st.is_reversed <;> simp [simTime, hp, hm, hr] <;> ring
  · simp [process_telemetry_control, simTime, hp, hm]
  · simp [process_telemetry_control, simTime, hp, hm, hs]

/-- Witness for C2 at a concrete playing state and wall time. -/
theorem claim_C2_witness :
    simTime stPlaying 3
      = stPlaying.start_timestamp
        + (if stPlaying.is_reversed then (-1 : ℚ) else 1) * stPlaying.speed * (3 - 0)
    ∧ simTime (process_telemetry_control 3 stPlaying .pause) 3 = simTime stPlaying 3
    ∧ simTime (process_telemetry_control 3
        (process_telemetry_control 3 stPlaying .pause) .play) 3 = simTime stPlaying 3 :=
  claim_C2_simtime_formula_and_pause_play_roundtrip stPlaying 3 0 rfl rfl rfl

/-- Counterexample for C6: from a paused state satisfying the invariant,
`seek` leaves a non-null wall anchor while still paused, and `speed` with a
negative value sets a negative speed — both invariant violations.  And
`restart` issued on a playing state with no loaded rows sets
`is_paused = True` and then raises IndexError on `telemetry_rows[0]`
(main.py lines 704-710) before clearing the anchor, leaving a non-null
anchor in a paused state — a third violation. -/
theorem claim_C6_counterexample :
    (stPausedInit.master_start_time = none ∧ stPausedInit.is_paused = true
      ∧ (0 : ℚ) ≤ stPausedInit.speed)
    ∧ ((process_telemetry_control 0 stPausedInit (.seek 5)).is_paused = true
       ∧ (process_telemetry_control 0 stPausedInit (.seek 5)).master_start_time = some 0)
    ∧ (process_telemetry_control 0 stPausedInit (.speed (-2))).speed < 0
    ∧ (stPlayingEmpty.rows = [] ∧ stPlayingEmpty.is_paused = false
       ∧ stPlayingEmpty.master_start_time = some 0
       ∧ (process_telemetry_control 0 stPlayingEmpty .restart).is_paused = true
       ∧ (process_telemetry_control 0 stPlayingEmpty .restart).master_start_time
           = some 0) := by
  decide

theorem control_preserves_invariant_aux (now : ℚ) (st : PState) (c : Cmd)
    (hinv : StateInv st) (hok : PreservesOK st c) :
    StateInv (process_telemetry_control now st c) := by
  obtain ⟨ha, hs⟩ := hinv
  obtain ⟨p, rev, hst, sp, ms, ts, rws, pnd, ci, ls⟩ := st
  simp only at ha hs
  cases c with
  | play =>
    cases p <;> cases hst <;> cases ms <;>
      simp_all [process_telemetry_control, StateInv] <;>
      split <;> simp_all
  | reverse =>
    cases p <;> cases hst <;> cases ms <;>
      simp_all [process_telemetry_control, StateInv]
  | restart =>
    have hok2 : rws ≠ [] ∨ p = true := hok
    cases p <;> cases ms <;>
      simp_all [process_telemetry_control, StateInv] <;>
      split <;> simp_all
  | pause =>
    cases p <;> cases ms <;> simp_all [process_telemetry_control, StateInv]
  | speed v =>
    have hv : (0 : ℚ) ≤ v := hok
    cases p <;> cases ms <;>
      simp_all [process_telemetry_control, StateInv] <;>
      split <;> simp_all
  | seek t =>
    have hp : p = false := hok
    cases ms <;> simp_all [process_telemetry_control, StateInv]
  | unknown s =>
    simp_all [process_telemetry_control, StateInv]

/-- C6 (amended): `play`, `reverse`, `pause` and unknown commands preserve
the playback-state invariant unconditionally; `restart` preserves it when
rows are loaded or the state was already paused (on a playing state with
no rows it sets `is_paused` and then raises IndexError at
`telemetry_rows[0]` before clearing the anchor, leaving a non-null anchor
while paused); `speed` preserves it exactly when the commanded value is
non-negative (the code does not clamp), and `seek` preserves it only when
issued while playing (issued while paused it leaves a non-null anchor). -/
theorem claim_C6_amended_control_preserves_invariant (now : ℚ) (st : PState) (c : Cmd)
    (hinv : StateInv st) (hok : PreservesOK st c) :
    StateInv (process_telemetry_control now st c) :=
  control_preserves_invariant_aux now st c hinv hok

/-- Witness for the amended C6: `pause` from a playing state. -/
theorem claim_C6_amended_witness :
    StateInv (process_telemetry_control 1 stPlaying Cmd.pause) :=
  claim_C6_amended_control_preserves_invariant 1 stPlaying Cmd.pause
    ⟨by simp [stPlaying], by norm_num [stPlaying]⟩ trivial

/-! ### Deduplication and emitted values -/

theorem dedupRows_filter_key (k : ℚ × String × String) :
    ∀ (batch : List TRow) (seen : List (ℚ × String × String)),
      (k ∈ seen →
        (dedupRows batch seen).filter (fun r => decide (rkey r = k)) = [])
      ∧ (k ∉ seen →
        (dedupRows batch seen).filter (fun r => decide (rkey r = k))
          = (batch.filter (fun r => decide (rkey r = k))).take 1) := by
  intro batch
  induction batch with
  | nil => intro seen; constructor <;> intro h <;> simp [dedupRows]
  | cons r rest ih =>
    intro seen
    constructor
    · intro hk
      by_cases hr : rkey r ∈ seen
      · simp only [dedupRows, if_pos hr]
        exact (ih seen).1 hk
      · simp only [dedupRows, if_neg hr]
        have hne : ¬ (rkey r = k) := fun he => hr (he ▸ hk)
        rw [List.filter_cons_of_neg (by simp [hne])]
        exact (ih (rkey r :: seen)).1 (List.mem_cons_of_mem _ hk)
    · intro hk
      by_cases hr : rkey r ∈ seen
      · simp only [dedupRows, if_pos hr]
        have hne : ¬ (rkey r = k) := fun he => hk (he ▸ hr)
        rw [(ih seen).2 hk, List.filter_cons_of_neg (by simp [hne])]
      · simp only [dedupRows, if_neg hr]
        by_cases he : rkey r = k
        · rw [List.filter_cons_of_pos (by simp [he]),
              List.filter_cons_of_pos (by simp [he])]
          rw [(ih (rkey r :: seen)).1 (by rw [he]; exact List.mem_cons_self _ _)]
          simp
        · rw [List.filter_cons_of_neg (by simp [he]),
              List.filter_cons_of_neg (by simp [he])]
          refine (ih (rkey r :: seen)).2 ?_
          intro hmem
          rcases List.mem_cons.mp hmem with h1 | h2
          · exact he h1.symm
          · exact hk h2

/-- C7: when a batch contains two or more samples with an identical
`(timestamp, vehicle, channel)` key, exactly one of them (the first)
survives the `seen`-set deduplication into the emitted frame; every later
duplicate of an already-seen key is discarded. -/
theorem claim_C7_batch_dedup (batch : List TRow) (k : ℚ × String × String)
    (hdup : 2 ≤ batch.countP (fun r => decide (rkey r = k))) :
    (dedupRows batch []).countP (fun r => decide (rkey r = k)) = 1
    ∧ (dedupRows batch []).filter (fun r => decide (rkey r = k))
        = (batch.filter (fun r => decide (rkey r = k))).take 1 := by
  have h2 := (dedupRows_filter_key k batch []).2 (by simp)
  refine ⟨?_, h2⟩
  rw [List.countP_eq_length_filter, h2, List.length_take]
  rw [List.countP_eq_length_filter] at hdup
  omega

/-- Witness for C7 on a batch with a duplicated key. -/
theorem claim_C7_witness :
    2 ≤ batchDup.countP (fun r => decide (rkey r = ((0 : ℚ), "7", "speed")))
    ∧ ((dedupRows batchDup []).countP
          (fun r => decide (rkey r = ((0 : ℚ), "7", "speed"))) = 1
       ∧ (dedupRows batchDup []).filter
            (fun r => decide (rkey r = ((0 : ℚ), "7", "speed")))
          = (batchDup.filter
              (fun r => decide (rkey r = ((0 : ℚ), "7", "speed")))).take 1) :=
  ⟨by decide, claim_C7_batch_dedup batchDup ((0 : ℚ), "7", "speed") (by decide)⟩

/-- Counterexample for C9: an unparsable channel value is not replaced by
the absence marker on emission — `cast_num` returns the original object,
and it reaches the frame unchanged. -/
theorem claim_C9_counterexample :
    emitVal "speed" (RVal.str "NA") = EVal.raw "NA"
    ∧ EVal.raw "NA" ≠ EVal.null
    ∧ buildFrames [⟨0, "7", "speed", RVal.str "NA"⟩]
        = [⟨0, [("7", "speed", EVal.raw "NA")]⟩] := by
  decide

/-- C9 (amended): on emission a numeric `lap` value is coerced to an
integer (truncation toward zero); on every other channel numbers pass
through as floats, missing values become the explicit `None` marker, and
unparsable values pass through unchanged; a missing value is never turned
into zero. -/
theorem claim_C9_amended_emission_policy (name : String) (q : ℚ) (s : String)
    (hname : name ≠ "lap") :
    emitVal name (RVal.num q) = EVal.float q
    ∧ emitVal name RVal.nan = EVal.null
    ∧ emitVal name (RVal.str s) = EVal.raw s
    ∧ emitVal "lap" (RVal.num q) = EVal.int (pyInt q)
    ∧ emitVal name RVal.nan ≠ EVal.float 0
    ∧ emitVal "lap" RVal.nan ≠ EVal.int 0 := by
  have h : (name == "lap") = false := beq_eq_false_iff_ne.mpr hname
  refine ⟨?_, ?_, ?_, ?_, ?_, ?_⟩ <;> simp [emitVal, cast_num, h]

/-- Witness for the amended C9 at the `speed` channel. -/
theorem claim_C9_amended_witness :
    emitVal "speed" (RVal.num (7 / 2)) = EVal.float (7 / 2)
    ∧ emitVal "speed" RVal.nan = EVal.null
    ∧ emitVal "speed" (RVal.str "x") = EVal.raw "x"
    ∧ emitVal "lap" (RVal.num (7 / 2)) = EVal.int (pyInt (7 / 2))
    ∧ emitVal "speed" RVal.nan ≠ EVal.float 0
    ∧ emitVal "lap" RVal.nan ≠ EVal.int 0 :=
  claim_C9_amended_emission_policy "speed" (7 / 2) "x" (by decide)

/-! ### Tick helper lemmas -/

theorem dedupRows_sublist : ∀ (batch : List TRow) (seen), List.Sublist (dedupRows batch seen) batch := by
  intro batch
  induction batch with
  | nil => intro seen; simp [dedupRows]
  | cons r rest ih =>
    intro seen
    simp only [dedupRows]
    split
    · exact (ih seen).cons r
    · exact (ih _).cons₂ r

theorem uniqueFirstAux_sublist : ∀ (l : List ℚ) (seen), List.Sublist (uniqueFirstAux l seen) l := by
  intro l
  induction l with
  | nil => intro seen; simp [uniqueFirstAux]
  | cons t rest ih =>
    intro seen
    simp only [uniqueFirstAux]
    split
    · exact (ih seen).cons t
    · exact (ih _).cons₂ t

theorem buildFrames_timestamps (batch : List TRow) :
    (buildFrames batch).map (fun f => f.timestamp)
      = uniqueFirst ((dedupRows batch []).map (fun r => r.time)) := by
  simp only [buildFrames]
  rw [List.map_map]
  have hcomp : ((fun f : Frame => f.timestamp) ∘ frameFor (dedupRows batch []))
      = fun ts => ts := rfl
  rw [hcomp, List.map_id']

theorem buildFrames_times_sorted (batch : List TRow)
    (h : batch.Pairwise (fun a b => a.time ≤ b.time)) :
    ((buildFrames batch).map (fun f => f.timestamp)).Pairwise (· ≤ ·) := by
  rw [buildFrames_timestamps]
  have h1 : ((dedupRows batch []).map (fun r => r.time)).Pairwise (· ≤ ·) :=
    List.pairwise_map.mpr (List.Pairwise.sublist (dedupRows_sublist batch []) h)
  exact List.Pairwise.sublist (uniqueFirstAux_sublist _ []) h1

theorem tick_paused (now : ℚ) (g : PState) (h : g.is_paused = true) :
    tick now g = (g, []) := by
  simp [tick, h]

theorem tick_forward_end (now m : ℚ) (g : PState)
    (hp : g.is_paused = false) (hsp : g.speed ≠ 0) (hr : g.is_reversed = false)
    (hm : g.master_start_time = some m)
    (hrate : sendInterval ≤ now - g.last_send)
    (hlt : g.current_index < g.rows.length)
    (hdue : ∀ r ∈ g.rows.drop g.current_index,
        r.time ≤ g.start_timestamp + (now - m) * g.speed) :
    tick now g =
      ({ g with current_index := g.rows.length, pending := [],
                last_send := now, is_paused := true, master_start_time := none },
       (buildFrames (g.rows.drop g.current_index)).map Msg.frame) := by
  have h0 : (g.speed == 0) = false := by simpa using hsp
  have hend : bisectRightFrom (g.rows.map (fun r => r.time))
      (g.start_timestamp + (now - m) * g.speed) g.current_index = g.rows.length := by
    unfold bisectRightFrom
    rw [← List.map_drop, List.countP_map]
    have hcnt : (g.rows.drop g.current_index).countP
        ((fun t => decide (t ≤ g.start_timestamp + (now - m) * g.speed))
          ∘ (fun r => r.time))
        = (g.rows.drop g.current_index).length := by
      rw [List.countP_eq_length]
      intro r hr2
      simpa using hdue r hr2
    rw [hcnt, List.length_drop]
    omega
  have hnlt : ¬ (now - g.last_send < sendInterval) := not_lt.mpr hrate
  have hne : (g.rows.drop g.current_index).isEmpty = false := by
    simp [List.isEmpty_iff, List.drop_eq_nil_iff]
    omega
  simp only [tick, hp, h0, hm, hr, Bool.or_self, Bool.false_or, if_false]
  simp only [Option.getD_some, Bool.false_eq_true, if_false]
  rw [if_neg hnlt]
  have htake : (g.rows.drop g.current_index).take (g.rows.length - g.current_index)
      = g.rows.drop g.current_index := by
    rw [← List.length_drop]
    exact List.take_length _
  simp only [hend, htake, hne, List.drop_length, List.isEmpty_nil, Bool.false_eq_true,
    if_false, Bool.not_false, Bool.and_true, Bool.true_and, Bool.or_true, Bool.true_or,
    if_true]

theorem tick_no_end (now : ℚ) (g : PState) :
    (tick now g).2.countP isEndMsg = 0 := by
  by_cases hp : (g.is_paused || g.speed == 0) = true
  · simp [tick, hp]
  · simp only [tick, hp, Bool.false_eq_true, if_false]
    cases hm : g.master_start_time
    all_goals
      repeat' split
    all_goals simp [List.countP_map, isEndMsg, Function.comp]

theorem tickVehicle_paused (now : ℚ) (v : VState) (h : v.is_paused = true) :
    tickVehicle now v = (v, [], false) := by
  simp [tickVehicle, h]

theorem tickVehicle_reverse_no_end (now : ℚ) (v : VState)
    (h : v.is_reversed = true) :
    (tickVehicle now v).2.1.countP isEndMsg = 0
    ∧ (tickVehicle now v).2.2 = false := by
  by_cases hp : (v.is_paused || v.speed == 0) = true
  · simp [tickVehicle, hp]
  · simp only [tickVehicle, hp, Bool.false_eq_true, if_false]
    cases hm : v.master_start_time with
    | none =>
      simp only [h, if_true]
      split
      · simp
      split
      · simp
      split
      next hemp hcond =>
        exfalso
        simp only [Bool.not_true, Bool.and_false, Bool.false_or, Bool.and_true] at hcond
        exact hemp hcond
      next hcond =>
        constructor
        · simp [List.countP_map, isEndMsg, Function.comp]
        · simp
    | some m =>
      simp only [h, if_true]
      split
      · simp
      split
      · simp
      split
      next hemp hcond =>
        exfalso
        simp only [Bool.not_true, Bool.and_false, Bool.false_or, Bool.and_true] at hcond
        exact hemp hcond
      next hcond =>
        constructor
        · simp [List.countP_map, isEndMsg, Function.comp]
        · simp

theorem tickVehicle_forward_end (now m : ℚ) (v : VState)
    (hp : v.is_paused = false) (hsp : v.speed ≠ 0) (hr : v.is_reversed = false)
    (hm : v.master_start_time = some m)
    (hrate : sendInterval ≤ now - v.last_send)
    (hne : v.pending ≠ [])
    (hdue : ∀ r ∈ v.pending,
        r.time ≤ v.start_timestamp + (now - m) * v.speed) :
    tickVehicle now v =
      ({ v with pending := [], last_send := now, is_paused := true,
                master_start_time := none },
       (buildFramesVehicle v.pending).map Msg.frame
         ++ [Msg.endOfStream (v.start_timestamp + (now - m) * v.speed)], true) := by
  have h0 : (v.speed == 0) = false := by simpa using hsp
  have hfil1 : v.pending.filter
      (fun r => decide (r.time ≤ v.start_timestamp + (now - m) * v.speed))
      = v.pending :=
    List.filter_eq_self.mpr (fun r hr2 => by simpa using hdue r hr2)
  have hfil2 : v.pending.filter
      (fun r => decide (r.time > v.start_timestamp + (now - m) * v.speed))
      = [] :=
    List.filter_eq_nil_iff.mpr
      (fun r hr2 => by simpa using not_lt.mpr (hdue r hr2))
  have hnlt : ¬ (now - v.last_send < sendInterval) := not_lt.mpr hrate
  have hneb : v.pending.isEmpty = false := by
    simp [List.isEmpty_iff, hne]
  simp only [tickVehicle, hp, h0, hm, hr, Bool.or_self, Bool.false_or, if_false]
  simp only [Option.getD_some, Bool.false_eq_true, if_false]
  rw [if_neg hnlt]
  simp only [hfil1, hfil2, hneb, List.isEmpty_nil, Bool.false_eq_true, if_false,
    Bool.not_false, Bool.and_true, Bool.true_and, Bool.or_true, Bool.true_or,
    if_true]

/-- Counterexample for C3.  Three refutations of the claimed end-of-stream
behaviour of `main.py`.  (1) Reverse: `gRevStuck` is reversed and playing,
its simulated time is already past every sample, yet its tick emits
nothing and leaves the clock playing — the end branch sits behind the
`if not to_emit: continue` guard of lines 613-617, so a reverse run never
reaches it.  (2) Rate limiting: `gFwdRateLimited` consumes its whole
batch while rate-limited, the batch is discarded, and the next tick finds
nothing pending and nothing to emit, so the cursor passes the end of data
without any end event.  (3) Forward end: even the forward tick of
`gFwdEnd` that does exhaust the pending samples emits its frames but NO
`telemetry_end` — lines 669-675 only construct `end_msg`; it is never
appended to `telemetry_cache` nor sent, so no subscriber ever receives a
`telemetry_end` from `main.py` at all. -/
theorem claim_C3_counterexample :
    (gRevStuck.is_reversed = true
     ∧ simTime gRevStuck 1 = 99
     ∧ (∀ r ∈ gRevStuck.rows, r.time < simTime gRevStuck 1)
     ∧ (tick 1 gRevStuck).2 = []
     ∧ (tick 1 gRevStuck).1.is_paused = false)
    ∧ ((tick 1 gFwdRateLimited).2 = []
       ∧ (tick 1 gFwdRateLimited).1.pending = []
       ∧ (tick 1 gFwdRateLimited).1.current_index = gFwdRateLimited.rows.length
       ∧ (tick 2 (tick 1 gFwdRateLimited).1).2 = []
       ∧ (tick 2 (tick 1 gFwdRateLimited).1).1.is_paused = false)
    ∧ ((tick 1 gFwdEnd).2.countP isEndMsg = 0
       ∧ (tick 1 gFwdEnd).2 ≠ []
       ∧ (tick 1 gFwdEnd).1.is_paused = true
       ∧ (tick 1 gFwdEnd).1.master_start_time = none) := by
  with_unfolding_all decide

/-- C3 (amended): in `main.py` a paused (in particular, ended) clock ticks
silently, and no tick ever emits a `telemetry_end` — the end branch of
lines 666-675 constructs `end_msg` but never caches or sends it; the
forward tick that exhausts the pending samples delivers its frames only
and transitions the clock to the ended (paused, anchor-cleared) state.  In
`telemetry_vehicle_server.py` the loop does deliver `telemetry_end`: a
paused tick is silent, a reverse tick never emits one nor halts the loop
(its end disjunct requires the just-emitted batch to be empty, unreachable
past the `if not to_emit: continue` guard), and the forward tick that
exhausts the pending samples sends its frames followed by exactly one
`telemetry_end` carrying the final simulated timestamp, pauses the clock,
clears the anchor, and halts the loop (`shutdown_event.set()`; `break`). -/
theorem claim_C3_amended_end_of_stream (now m : ℚ) (g : PState) (v : VState) :
    (g.is_paused = true → tick now g = (g, []))
    ∧ (tick now g).2.countP isEndMsg = 0
    ∧ (g.is_paused = false → g.speed ≠ 0 → g.is_reversed = false →
       g.master_start_time = some m →
       sendInterval ≤ now - g.last_send →
       g.current_index < g.rows.length →
       (∀ r ∈ g.rows.drop g.current_index,
          r.time ≤ g.start_timestamp + (now - m) * g.speed) →
       tick now g =
         ({ g with current_index := g.rows.length, pending := [],
                   last_send := now, is_paused := true,
                   master_start_time := none },
          (buildFrames (g.rows.drop g.current_index)).map Msg.frame))
    ∧ (v.is_paused = true → tickVehicle now v = (v, [], false))
    ∧ (v.is_reversed = true →
       (tickVehicle now v).2.1.countP isEndMsg = 0
       ∧ (tickVehicle now v).2.2 = false)
    ∧ (v.is_paused = false → v.speed ≠ 0 → v.is_reversed = false →
       v.master_start_time = some m →
       sendInterval ≤ now - v.last_send →
       v.pending ≠ [] →
       (∀ r ∈ v.pending,
          r.time ≤ v.start_timestamp + (now - m) * v.speed) →
       tickVehicle now v =
         ({ v with pending := [], last_send := now, is_paused := true,
                   master_start_time := none },
          (buildFramesVehicle v.pending).map Msg.frame
            ++ [Msg.endOfStream (v.start_timestamp + (now - m) * v.speed)],
          true)
       ∧ (tickVehicle now v).2.1.countP isEndMsg = 1) := by
  refine ⟨tick_paused now g, tick_no_end now g, ?_, tickVehicle_paused now v,
    tickVehicle_reverse_no_end now v, ?_⟩
  · intro hp hsp hr hm hrate hlt hdue
    exact tick_forward_end now m g hp hsp hr hm hrate hlt hdue
  · intro hp hsp hr hm hrate hne hdue
    have heq := tickVehicle_forward_end now m v hp hsp hr hm hrate hne hdue
    refine ⟨heq, ?_⟩
    rw [heq]
    simp [List.countP_map, isEndMsg, Function.comp]

/-- Witness for the amended C3: the `main.py` forward tick that exhausts
`exRows1` emits its frame and no end message, while the vehicle-server
tick at `vFwdEnd` emits its frame, exactly one `telemetry_end`, and halts. -/
theorem claim_C3_amended_witness :
    tick 1 gFwdEnd =
      ({ gFwdEnd with current_index := gFwdEnd.rows.length, pending := [],
                      last_send := 1, is_paused := true,
                      master_start_time := none },
       (buildFrames (gFwdEnd.rows.drop gFwdEnd.current_index)).map Msg.frame)
    ∧ tickVehicle 1 vFwdEnd =
      ({ vFwdEnd with pending := [], last_send := 1, is_paused := true,
                      master_start_time := none },
       (buildFramesVehicle vFwdEnd.pending).map Msg.frame
         ++ [Msg.endOfStream (vFwdEnd.start_timestamp + (1 - 0) * vFwdEnd.speed)],
       true)
    ∧ (tickVehicle 1 vFwdEnd).2.1.countP isEndMsg = 1 :=
  ⟨(claim_C3_amended_end_of_stream 1 0 gFwdEnd vFwdEnd).2.2.1 rfl (by decide) rfl
      rfl (by with_unfolding_all decide) (by decide) (by with_unfolding_all decide),
   ((claim_C3_amended_end_of_stream 1 0 gFwdEnd vFwdEnd).2.2.2.2.2 rfl (by decide)
      rfl rfl (by with_unfolding_all decide) (by with_unfolding_all decide)
      (by with_unfolding_all decide)).1,
   ((claim_C3_amended_end_of_stream 1 0 gFwdEnd vFwdEnd).2.2.2.2.2 rfl (by decide)
      rfl rfl (by with_unfolding_all decide) (by with_unfolding_all decide)
      (by with_unfolding_all decide)).2⟩

theorem framesMsgs_map_msgTime (b : List TRow) :
    ((buildFrames b).map Msg.frame).map msgTime
      = (buildFrames b).map (fun f => f.timestamp) := by
  rw [List.map_map]; rfl

/-- C4 (amended): with time-sorted rows and an established anchor, every
tick emits its messages in non-decreasing simulated-timestamp order — in
forward playback as claimed, and in reverse playback likewise ascending
(each tick re-emits the tail of samples at or after the simulated time in
storage order, not in descending order) — and the forward cursor index
never decreases across a tick. -/
theorem claim_C4_amended_ordering (now m : ℚ) (g : PState)
    (hsorted : g.rows.Pairwise (fun a b => a.time ≤ b.time))
    (hm : g.master_start_time = some m) :
    (((tick now g).2).map msgTime).Pairwise (fun a b => a ≤ b)
    ∧ g.current_index ≤ (tick now g).1.current_index := by
  by_cases hp : (g.is_paused || g.speed == 0) = true
  · simp [tick, hp]
  · simp only [tick, hp, Bool.false_eq_true, if_false, hm, Option.getD_some]
    cases hrev : g.is_reversed with
    | true =>
      simp only [if_true]
      constructor
      · split
        · simp
        split
        · simp
        split
        next hemp hcond =>
          exfalso
          simp only [Bool.not_true, Bool.and_false, Bool.false_or, Bool.and_true] at hcond
          exact hemp hcond
        next hcond =>
          rw [framesMsgs_map_msgTime]
          exact buildFrames_times_sorted _
            (List.Pairwise.sublist (List.drop_sublist _ _) hsorted)
      · split
        · simp
        split
        · simp
        split
        · simp
        · simp
    | false =>
      simp only [if_false, Bool.false_eq_true]
      constructor
      · split
        · simp
        split
        · simp
        split
        next hemp hcond =>
          rw [framesMsgs_map_msgTime]
          exact buildFrames_times_sorted _
            (List.Pairwise.sublist
              ((List.take_sublist _ _).trans (List.drop_sublist _ _)) hsorted)
        next hcond =>
          rw [framesMsgs_map_msgTime]
          exact buildFrames_times_sorted _
            (List.Pairwise.sublist
              ((List.take_sublist _ _).trans (List.drop_sublist _ _)) hsorted)
      · have hb2 : g.current_index ≤ bisectRightFrom (g.rows.map fun r => r.time)
            (g.start_timestamp + (now - m) * g.speed) g.current_index := by
          simp [bisectRightFrom]
        split
        · simpa using hb2
        split
        · simpa using hb2
        split
        · simpa using hb2
        · simpa using hb2

/-- Counterexample for C4: a reverse tick over two samples emits them in
ascending timestamp order `[0, 1]`, which is not non-increasing. -/
theorem claim_C4_counterexample :
    (tick 2 gRevAsc).2.map msgTime = [0, 1]
    ∧ ¬ (((tick 2 gRevAsc).2.map msgTime).Pairwise (fun a b : ℚ => b ≤ a)) := by
  with_unfolding_all decide

/-- Witness for the amended C4 at a concrete forward-playing state. -/
theorem claim_C4_witness :
    (((tick 1 gFwdEnd).2).map msgTime).Pairwise (fun a b => a ≤ b)
    ∧ gFwdEnd.current_index ≤ (tick 1 gFwdEnd).1.current_index :=
  claim_C4_amended_ordering 1 0 gFwdEnd (by decide) rfl

/-! ### Sorting and stability lemmas for the directional filter -/

theorem rowLE_trans : ∀ (a b c : Row), rowLE a b → rowLE b c → rowLE a c := by
  intro a b c hab hbc
  simp only [rowLE, decide_eq_true_eq] at hab hbc ⊢
  exact le_trans hab hbc

theorem rowLE_total : ∀ (a b : Row), rowLE a b || rowLE b a := by
  intro a b
  simp only [rowLE, Bool.or_eq_true, decide_eq_true_eq]
  exact le_total _ _

theorem sortByTime_perm (l : List Row) : (sortByTime l).Perm l :=
  List.mergeSort_perm l rowLE

theorem sortByTime_sorted (l : List Row) :
    (sortByTime l).Pairwise (fun a b => rowLE a b) :=
  List.sorted_mergeSort rowLE_trans rowLE_total l

theorem sortByTime_of_sorted {l : List Row}
    (h : l.Pairwise (fun a b => rowLE a b)) : sortByTime l = l :=
  List.mergeSort_of_sorted h

theorem filter_sortByTime_eq {base c : List Row} {p : Row → Bool}
    (hc : c.Pairwise (fun a b => rowLE a b))
    (hsub : List.Sublist c base)
    (hp : ∀ r ∈ c, p r = true)
    (hperm : (base.filter p).Perm c) :
    (sortByTime base).filter p = c := by
  have h1 : List.Sublist c (sortByTime base) :=
    List.sublist_mergeSort rowLE_trans rowLE_total hc hsub
  have h2 : c.filter p = c := List.filter_eq_self.mpr hp
  have h3 : List.Sublist c ((sortByTime base).filter p) := by
    have h4 := h1.filter p
    rwa [h2] at h4
  have h5 : ((sortByTime base).filter p).Perm c :=
    ((sortByTime_perm base).filter p).trans hperm
  exact (h3.eq_of_length h5.length_eq.symm).symm

/-! ### Relating the index fold to the pair recursion -/

theorem foldl_dirUpdate_reverse (pts : List Pt) :
    ∀ (l : List Nat) (i1 i2 : Nat) (t : List Nat),
      (l.foldl (dirUpdate pts) (i1 :: i2 :: t)).reverse
        = (i1 :: i2 :: t).reverse ++ dirSelectIdx pts i2 i1 l := by
  intro l
  induction l with
  | nil => intro i1 i2 t; simp [dirSelectIdx]
  | cons i rest ih =>
    intro i1 i2 t
    simp only [List.foldl_cons, dirUpdate, dirSelectIdx]
    by_cases h : 0 < dotPt (subPt (pts.getD i1 (0, 0)) (pts.getD i2 (0, 0)))
        (subPt (pts.getD i (0, 0)) (pts.getD i1 (0, 0)))
    · rw [if_pos h, if_pos h, ih i i1 (i2 :: t)]
      simp
    · rw [if_neg h, if_neg h, ih i1 i2 t]

theorem filteredIndices_eq (pts : List Pt) :
    filteredIndices pts
      = [0, 1, 2] ++ dirSelectIdx pts 1 2 (List.range' 3 (pts.length - 3)) := by
  unfold filteredIndices
  rw [foldl_dirUpdate_reverse pts _ 2 1 [0]]
  rfl

theorem getD_of_lt {α : Type} [Inhabited α] (l : List α) (n : Nat) (d : α)
    (h : n < l.length) : l.getD n d = l[n] := by
  rw [List.getD_eq_getElem?_getD, List.getElem?_eq_getElem h, Option.getD_some]

theorem dirSelectIdx_sublist (pts : List Pt) :
    ∀ (l : List Nat) (i2 i1 : Nat), List.Sublist (dirSelectIdx pts i2 i1 l) l := by
  intro l
  induction l with
  | nil => intro i2 i1; simp [dirSelectIdx]
  | cons i rest ih =>
    intro i2 i1
    simp only [dirSelectIdx]
    split
    · exact (ih i1 i).cons₂ i
    · exact (ih i2 i1).cons i

theorem filteredIndices_lt (pts : List Pt) (h3 : 3 ≤ pts.length) :
    ∀ i ∈ filteredIndices pts, i < pts.length := by
  rw [filteredIndices_eq]
  intro i hi
  rcases List.mem_append.mp hi with h | h
  · have h0 : i = 0 ∨ i = 1 ∨ i = 2 := by simpa using h
    omega
  · have h1 := (dirSelectIdx_sublist pts _ 1 2).subset h
    rw [List.mem_range'_1] at h1
    omega

theorem exists_three_of_le_length {α : Type} {P : List α} (h3 : 3 ≤ P.length) :
    ∃ a b c rest, P = a :: b :: c :: rest := by
  cases P with
  | nil => simp at h3
  | cons a P1 =>
    cases P1 with
    | nil => simp at h3
    | cons b P2 =>
      cases P2 with
      | nil => simp at h3
      | cons c rest => exact ⟨a, b, c, rest, rfl⟩

theorem dirSelectIdx_map_getD (proj : ℚ → ℚ → Pt) (P : List (Row × Row)) :
    ∀ (n k i2 i1 : Nat), k + n = P.length → i2 < P.length → i1 < P.length →
      (dirSelectIdx (P.map (projP proj)) i2 i1 (List.range' k n)).map
          (fun i => P.getD i default)
        = dirSelectPairs proj (projP proj (P.getD i2 default))
            (projP proj (P.getD i1 default)) (P.drop k) := by
  intro n
  induction n with
  | zero =>
    intro k i2 i1 hk h2 h1
    have hle : P.length ≤ k := by omega
    simp [dirSelectIdx, dirSelectPairs, List.drop_eq_nil_of_le hle]
  | succ n ih =>
    intro k i2 i1 hk h2 h1
    have hklt : k < P.length := by omega
    have hget : ∀ j, j < P.length →
        (P.map (projP proj)).getD j (0, 0) = projP proj (P.getD j default) := by
      intro j hj
      rw [getD_of_lt _ _ _ (by simpa using hj), getD_of_lt _ _ _ hj,
        List.getElem_map]
    have hdk : P.drop k = P.getD k default :: P.drop (k + 1) := by
      rw [List.drop_eq_getElem_cons hklt, getD_of_lt P k default hklt]
    rw [List.range'_succ, hdk]
    simp only [dirSelectIdx, dirSelectPairs]
    rw [hget i1 h1, hget i2 h2, hget k hklt]
    by_cases h : 0 < dotPt
        (subPt (projP proj (P.getD i1 default)) (projP proj (P.getD i2 default)))
        (subPt (projP proj (P.getD k default)) (projP proj (P.getD i1 default)))
    · rw [if_pos h, if_pos h]
      simp only [List.map_cons]
      rw [ih (k + 1) i1 k (by omega) h1 hklt]
    · rw [if_neg h, if_neg h]
      exact ih (k + 1) i2 i1 (by omega) h2 h1

theorem keptPairs_map_getD (proj : ℚ → ℚ → Pt) (P : List (Row × Row))
    (h3 : 3 ≤ P.length) :
    (filteredIndices (P.map (projP proj))).map (fun i => P.getD i default)
      = keptPairs proj P := by
  obtain ⟨a, b, c, rest, rfl⟩ := exists_three_of_le_length h3
  rw [filteredIndices_eq, List.map_append, List.length_map]
  have h2 := dirSelectIdx_map_getD proj (a :: b :: c :: rest)
      ((a :: b :: c :: rest).length - 3) 3 1 2 (by simp; omega) (by simp) (by simp)
  rw [h2]
  simp [keptPairs]

theorem directional_filter_eq_spec (proj : ℚ → ℚ → Pt) (df : List Row) :
    directional_filter proj df = directional_filter_spec proj df := by
  simp only [directional_filter, directional_filter_spec]
  by_cases hguard : ((sortByTime df).filter isLat).length
        = ((sortByTime df).filter isLon).length
      ∧ 3 ≤ ((sortByTime df).filter isLat).length
  · rw [if_pos hguard, if_pos hguard]
    obtain ⟨hlen, h3⟩ := hguard
    set s := sortByTime df with hs
    set lat := s.filter isLat with hlat
    set lon := s.filter isLon with hlon
    set P := lat.zip lon with hP
    have hPlen : P.length = lat.length := by
      rw [hP, List.length_zip, hlen, Nat.min_self]
    have h3P : 3 ≤ P.length := by omega
    have hfun : ((fun q : Row × Row => proj q.1.value q.2.value)) = projP proj := rfl
    rw [hfun]
    have hbound : ∀ i ∈ filteredIndices (P.map (projP proj)), i < P.length := by
      intro i hi
      have hb := filteredIndices_lt (P.map (projP proj)) (by simpa using h3P) i hi
      simpa using hb
    have hkept := keptPairs_map_getD proj P h3P
    have hLat : (filteredIndices (P.map (projP proj))).map
        (fun i => lat.getD i default) = (keptPairs proj P).map Prod.fst := by
      have hcongr : ∀ i ∈ filteredIndices (P.map (projP proj)),
          lat.getD i default = (P.getD i default).1 := by
        intro i hi
        have hiP := hbound i hi
        have hilat : i < lat.length := by omega
        have hilon : i < lon.length := by omega
        rw [getD_of_lt lat i default hilat, getD_of_lt P i default hiP]
        simp only [hP, List.getElem_zip]
      rw [List.map_congr_left hcongr,
        show (fun i => (P.getD i default).1)
            = (Prod.fst ∘ fun i => P.getD i default) from rfl,
        ← List.map_map, hkept]
    have hLon : (filteredIndices (P.map (projP proj))).map
        (fun i => lon.getD i default) = (keptPairs proj P).map Prod.snd := by
      have hcongr : ∀ i ∈ filteredIndices (P.map (projP proj)),
          lon.getD i default = (P.getD i default).2 := by
        intro i hi
        have hiP := hbound i hi
        have hilat : i < lat.length := by omega
        have hilon : i < lon.length := by omega
        rw [getD_of_lt lon i default hilon, getD_of_lt P i default hiP]
        simp only [hP, List.getElem_zip]
      rw [List.map_congr_left hcongr,
        show (fun i => (P.getD i default).2)
            = (Prod.snd ∘ fun i => P.getD i default) from rfl,
        ← List.map_map, hkept]
    rw [hLat, hLon]
  · rw [if_neg hguard, if_neg hguard]

/-! ### Channel-name exclusivity -/

theorem isLat_isLon_false {r : Row} (h : isLat r = true) : isLon r = false := by
  have hn : r.name = "VBOX_Lat_Min" := by simpa [isLat] using h
  simp [isLon, hn]

theorem isLon_isLat_false {r : Row} (h : isLon r = true) : isLat r = false := by
  have hn : r.name = "VBOX_Long_Minutes" := by simpa [isLon] using h
  simp [isLat, hn]

theorem isLat_isOther_false {r : Row} (h : isLat r = true) : isOther r = false := by
  simp [isOther, h]

theorem isLon_isOther_false {r : Row} (h : isLon r = true) : isOther r = false := by
  simp [isOther, h]

theorem isOther_isLat_false {r : Row} (h : isOther r = true) : isLat r = false := by
  simp only [isOther, Bool.and_eq_true, Bool.not_eq_eq_eq_not, Bool.not_true] at h
  exact h.1

theorem isOther_isLon_false {r : Row} (h : isOther r = true) : isLon r = false := by
  simp only [isOther, Bool.and_eq_true, Bool.not_eq_eq_eq_not, Bool.not_true] at h
  exact h.2

/-! ### Idempotence of the pair selection -/

theorem dirSelectPairs_sublist (proj : ℚ → ℚ → Pt) :
    ∀ (l : List (Row × Row)) (p2 p1 : Pt),
      List.Sublist (dirSelectPairs proj p2 p1 l) l := by
  intro l
  induction l with
  | nil => intro p2 p1; simp [dirSelectPairs]
  | cons rl rest ih =>
    intro p2 p1
    simp only [dirSelectPairs]
    split
    · exact (ih p1 (projP proj rl)).cons₂ rl
    · exact (ih p2 p1).cons rl

theorem dirSelectPairs_idem (proj : ℚ → ℚ → Pt) :
    ∀ (l : List (Row × Row)) (p2 p1 : Pt),
      dirSelectPairs proj p2 p1 (dirSelectPairs proj p2 p1 l)
        = dirSelectPairs proj p2 p1 l := by
  intro l
  induction l with
  | nil => intro p2 p1; rfl
  | cons rl rest ih =>
    intro p2 p1
    simp only [dirSelectPairs]
    by_cases h : 0 < dotPt (subPt p1 p2) (subPt (projP proj rl) p1)
    · rw [if_pos h]
      simp only [dirSelectPairs]
      rw [if_pos h, ih p1 (projP proj rl)]
    · rw [if_neg h]
      exact ih p2 p1

theorem keptPairs_sublist (proj : ℚ → ℚ → Pt) (P : List (Row × Row)) :
    List.Sublist (keptPairs proj P) P := by
  match P with
  | [] => simp [keptPairs]
  | [a] => simp [keptPairs]
  | [a, b] => simp [keptPairs]
  | a :: b :: c :: rest =>
    simp only [keptPairs]
    exact (((dirSelectPairs_sublist proj rest _ _).cons₂ c).cons₂ b).cons₂ a

theorem keptPairs_idem (proj : ℚ → ℚ → Pt) (P : List (Row × Row)) :
    keptPairs proj (keptPairs proj P) = keptPairs proj P := by
  match P with
  | [] => rfl
  | [a] => rfl
  | [a, b] => rfl
  | a :: b :: c :: rest =>
    simp only [keptPairs]
    rw [dirSelectPairs_idem]

theorem directional_filter_spec_idem (proj : ℚ → ℚ → Pt) (df : List Row) :
    directional_filter_spec proj (directional_filter_spec proj df)
      = directional_filter_spec proj df := by
  by_cases hguard : ((sortByTime df).filter isLat).length
        = ((sortByTime df).filter isLon).length
      ∧ 3 ≤ ((sortByTime df).filter isLat).length
  case neg =>
    have h1 : directional_filter_spec proj df = sortByTime df := by
      simp only [directional_filter_spec]
      rw [if_neg hguard]
    rw [h1]
    have h2 : sortByTime (sortByTime df) = sortByTime df :=
      sortByTime_of_sorted (sortByTime_sorted df)
    simp only [directional_filter_spec]
    rw [h2, if_neg hguard]
  case pos =>
    obtain ⟨hlen, h3⟩ := hguard
    set s := sortByTime df with hs
    set lat := s.filter isLat with hlat
    set lon := s.filter isLon with hlon
    set P := lat.zip lon with hPdef
    set kept := keptPairs proj P with hkept
    set latF := kept.map Prod.fst with hlatF
    set lonF := kept.map Prod.snd with hlonF
    set others := s.filter isOther with hothers
    set O := sortByTime (latF ++ lonF ++ others) with hO
    have h1 : directional_filter_spec proj df = O := by
      simp only [directional_filter_spec]
      rw [if_pos ⟨hlen, h3⟩]
    rw [h1]
    have hsort_s : s.Pairwise (fun a b => rowLE a b) := sortByTime_sorted df
    have hlat_sorted : lat.Pairwise (fun a b => rowLE a b) :=
      List.Pairwise.filter _ hsort_s
    have hlon_sorted : lon.Pairwise (fun a b => rowLE a b) :=
      List.Pairwise.filter _ hsort_s
    have hothers_sorted : others.Pairwise (fun a b => rowLE a b) :=
      List.Pairwise.filter _ hsort_s
    have hPfst : P.map Prod.fst = lat := List.map_fst_zip lat lon (le_of_eq hlen)
    have hPsnd : P.map Prod.snd = lon :=
      List.map_snd_zip lat lon (le_of_eq hlen.symm)
    have hlatF_sub : List.Sublist latF lat := by
      rw [hlatF, ← hPfst]
      exact (keptPairs_sublist proj P).map Prod.fst
    have hlonF_sub : List.Sublist lonF lon := by
      rw [hlonF, ← hPsnd]
      exact (keptPairs_sublist proj P).map Prod.snd
    have hlatF_sorted := List.Pairwise.sublist hlatF_sub hlat_sorted
    have hlonF_sorted := List.Pairwise.sublist hlonF_sub hlon_sorted
    have hlatF_all : ∀ r ∈ latF, isLat r = true := by
      intro r hr
      have hm : r ∈ lat := hlatF_sub.subset hr
      rw [hlat] at hm
      exact (List.mem_filter.mp hm).2
    have hlonF_all : ∀ r ∈ lonF, isLon r = true := by
      intro r hr
      have hm : r ∈ lon := hlonF_sub.subset hr
      rw [hlon] at hm
      exact (List.mem_filter.mp hm).2
    have hothers_all : ∀ r ∈ others, isOther r = true := by
      intro r hr
      rw [hothers] at hr
      exact (List.mem_filter.mp hr).2
    have hfilter_lat : (latF ++ lonF ++ others).filter isLat = latF := by
      rw [List.filter_append, List.filter_append,
        List.filter_eq_self.mpr hlatF_all,
        List.filter_eq_nil_iff.mpr
          (fun r hr => by simp [isLon_isLat_false (hlonF_all r hr)]),
        List.filter_eq_nil_iff.mpr
          (fun r hr => by simp [isOther_isLat_false (hothers_all r hr)])]
      simp
    have hfilter_lon : (latF ++ lonF ++ others).filter isLon = lonF := by
      rw [List.filter_append, List.filter_append,
        List.filter_eq_self.mpr hlonF_all,
        List.filter_eq_nil_iff.mpr
          (fun r hr => by simp [isLat_isLon_false (hlatF_all r hr)]),
        List.filter_eq_nil_iff.mpr
          (fun r hr => by simp [isOther_isLon_false (hothers_all r hr)])]
      simp
    have hfilter_other : (latF ++ lonF ++ others).filter isOther = others := by
      rw [List.filter_append, List.filter_append,
        List.filter_eq_self.mpr hothers_all,
        List.filter_eq_nil_iff.mpr
          (fun r hr => by simp [isLat_isOther_false (hlatF_all r hr)]),
        List.filter_eq_nil_iff.mpr
          (fun r hr => by simp [isLon_isOther_false (hlonF_all r hr)])]
      simp
    have hOlat : O.filter isLat = latF := by
      rw [hO]
      refine filter_sortByTime_eq hlatF_sorted ?_ hlatF_all (by rw [hfilter_lat])
      exact (List.sublist_append_left latF lonF).trans
        (List.sublist_append_left (latF ++ lonF) others)
    have hOlon : O.filter isLon = lonF := by
      rw [hO]
      refine filter_sortByTime_eq hlonF_sorted ?_ hlonF_all (by rw [hfilter_lon])
      exact (List.sublist_append_right latF lonF).trans
        (List.sublist_append_left (latF ++ lonF) others)
    have hOother : O.filter isOther = others := by
      rw [hO]
      refine filter_sortByTime_eq hothers_sorted ?_ hothers_all
        (by rw [hfilter_other])
      exact List.sublist_append_right (latF ++ lonF) others
    have hsortO : sortByTime O = O := by
      rw [hO]
      exact sortByTime_of_sorted (sortByTime_sorted _)
    have hPlen3 : 3 ≤ P.length := by
      rw [hPdef, List.length_zip, hlen, Nat.min_self]
      omega
    have hkept3 : 3 ≤ kept.length := by
      obtain ⟨a, b, c, rest, hPabc⟩ := exists_three_of_le_length hPlen3
      rw [hkept, hPabc]
      simp [keptPairs]
    have hlenF : latF.length = lonF.length := by
      rw [hlatF, hlonF]
      simp
    have h3F : 3 ≤ latF.length := by
      rw [hlatF]
      simpa using hkept3
    have hzipF : latF.zip lonF = kept := by
      rw [hlatF, hlonF, List.zip_map']
      simp
    have hkeptIdem : keptPairs proj kept = kept := by
      rw [hkept]
      exact keptPairs_idem proj P
    simp only [directional_filter_spec]
    rw [hsortO, hOlat, hOlon, hOother, if_pos ⟨hlenF, h3F⟩, hzipF, hkeptIdem]

/-! ### Output shape lemmas shared by the filter claims -/

theorem directional_filter_sorted (proj : ℚ → ℚ → Pt) (df : List Row) :
    (directional_filter proj df).Pairwise (fun a b => rowLE a b) := by
  simp only [directional_filter]
  split
  · exact sortByTime_sorted _
  · exact sortByTime_sorted df

theorem keptPairs_fst_mem {l1 l2 : List Row} (proj : ℚ → ℚ → Pt)
    (hle : l1.length ≤ l2.length) :
    ∀ r ∈ (keptPairs proj (l1.zip l2)).map Prod.fst, r ∈ l1 := by
  intro r hr
  have h1 : List.Sublist ((keptPairs proj (l1.zip l2)).map Prod.fst)
      ((l1.zip l2).map Prod.fst) := (keptPairs_sublist proj _).map Prod.fst
  rw [List.map_fst_zip l1 l2 hle] at h1
  exact h1.subset hr

theorem keptPairs_snd_mem {l1 l2 : List Row} (proj : ℚ → ℚ → Pt)
    (hle : l2.length ≤ l1.length) :
    ∀ r ∈ (keptPairs proj (l1.zip l2)).map Prod.snd, r ∈ l2 := by
  intro r hr
  have h1 : List.Sublist ((keptPairs proj (l1.zip l2)).map Prod.snd)
      ((l1.zip l2).map Prod.snd) := (keptPairs_sublist proj _).map Prod.snd
  rw [List.map_snd_zip l1 l2 hle] at h1
  exact h1.subset hr

theorem filter_isOther_three (latF lonF others : List Row)
    (h1 : ∀ r ∈ latF, isLat r = true) (h2 : ∀ r ∈ lonF, isLon r = true)
    (h3 : ∀ r ∈ others, isOther r = true) :
    (latF ++ lonF ++ others).filter isOther = others := by
  rw [List.filter_append, List.filter_append,
    List.filter_eq_self.mpr h3,
    List.filter_eq_nil_iff.mpr
      (fun r hr => by simp [isLat_isOther_false (h1 r hr)]),
    List.filter_eq_nil_iff.mpr
      (fun r hr => by simp [isLon_isOther_false (h2 r hr)])]
  simp

theorem directional_filter_other_perm (proj : ℚ → ℚ → Pt) (df : List Row) :
    ((directional_filter proj df).filter isOther).Perm (df.filter isOther) := by
  rw [directional_filter_eq_spec]
  simp only [directional_filter_spec]
  by_cases hguard : ((sortByTime df).filter isLat).length
        = ((sortByTime df).filter isLon).length
      ∧ 3 ≤ ((sortByTime df).filter isLat).length
  · rw [if_pos hguard]
    obtain ⟨hlen, h3⟩ := hguard
    refine ((sortByTime_perm _).filter _).trans ?_
    rw [filter_isOther_three _ _ _
      (fun r hr => (List.mem_filter.mp
        (keptPairs_fst_mem proj (le_of_eq hlen) r hr)).2)
      (fun r hr => (List.mem_filter.mp
        (keptPairs_snd_mem proj (le_of_eq hlen.symm) r hr)).2)
      (fun r hr => (List.mem_filter.mp hr).2)]
    exact (sortByTime_perm df).filter _
  · rw [if_neg hguard]
    exact (sortByTime_perm df).filter _

/-- C1 (amended): for every projection and per-vehicle dataframe, the
directional filter equals its specification-level description with the
strict comparison the code performs: the first three position pairs are
kept unconditionally; each later candidate is kept iff the dot product of
(last-accepted minus last-accepted-but-one) with (candidate minus
last-accepted) is strictly positive — i.e. it is removed whenever the dot
product is zero or negative; and on a lat/lon count mismatch or fewer than
three pairs the filter returns its input sorted by timestamp. -/
theorem claim_C1_directional_filter_refines_strict_spec
    (proj : ℚ → ℚ → Pt) (df : List Row) :
    directional_filter proj df = directional_filter_spec proj df :=
  directional_filter_eq_spec proj df

/-- Counterexample for C1: the fourth position pair of `dfZeroDot` repeats
the third fix, so its direction dot product is zero (under any projection);
the claim says a zero dot product is kept, but the filter drops the row.
Also, on an unsorted input with no position pairs the filter returns the
time-sorted rows, not the input unchanged. -/
theorem claim_C1_counterexample :
    dotPt (subPt (projId 2 0) (projId 1 0)) (subPt (projId 2 0) (projId 2 0)) = 0
    ∧ mkLat 6 2 ∈ dfZeroDot
    ∧ mkLat 6 2 ∉ directional_filter projId dfZeroDot
    ∧ directional_filter projId dfNoPos ≠ dfNoPos := by
  have hsdf : dfZeroDot.Pairwise (fun a b => rowLE a b) := by
    with_unfolding_all decide
  have hs : sortByTime dfZeroDot = dfZeroDot := sortByTime_of_sorted hsdf
  refine ⟨by norm_num [dotPt, subPt, projId], by with_unfolding_all decide, ?_, ?_⟩
  · simp only [directional_filter, hs]
    rw [if_pos (by with_unfolding_all decide :
      (dfZeroDot.filter isLat).length = (dfZeroDot.filter isLon).length
        ∧ 3 ≤ (dfZeroDot.filter isLat).length)]
    simp only [sortByTime, List.mem_mergeSort]
    with_unfolding_all decide
  · intro heq
    have hns : ¬ (dfNoPos.Pairwise (fun a b => rowLE a b)) := by
      with_unfolding_all decide
    apply hns
    rw [← heq]
    exact directional_filter_sorted projId dfNoPos

theorem oddSort_valid (l : List Row) :
    (oddSort l).Perm l ∧ (oddSort l).Pairwise (fun a b => rowLE a b) := by
  by_cases h : l = dfTied
  · subst h
    have ho : oddSort dfTied = dfTiedSwapped := by simp [oddSort]
    rw [ho]
    constructor
    · with_unfolding_all decide
    · with_unfolding_all decide
  · have ho : oddSort l = sortByTime l := by simp [oddSort, h]
    rw [ho]
    exact ⟨sortByTime_perm l, sortByTime_sorted l⟩

/-- Counterexample for C8: on `dfTied` — whose second and third latitude
rows share a timestamp — the first (stable-model) run keeps every row and
returns `dfTied` itself; re-running the filter on that output with
`oddSort`, an admissible realisation of the unstable `sort_values` that
merely permutes the two tied rows (`oddSort_valid`: every output is a
timestamp-sorted permutation of the input), re-pairs the position rows so
that `mkLat 3 3` now fails the strict dot-product test and is removed.
The second run therefore differs from the first output, so idempotence of
the program is not guaranteed: it depends on the unspecified tie order of
pandas quicksort. -/
theorem claim_C8_counterexample :
    directional_filter_with sortByTime projId dfTied
      = directional_filter projId dfTied
    ∧ directional_filter projId dfTied = dfTied
    ∧ (oddSort dfTied).Perm dfTied
    ∧ (oddSort dfTied).Pairwise (fun a b => rowLE a b)
    ∧ mkLat 3 3 ∈ directional_filter projId dfTied
    ∧ mkLat 3 3 ∉
        directional_filter_with oddSort projId (directional_filter projId dfTied)
    ∧ directional_filter_with oddSort projId (directional_filter projId dfTied)
      ≠ directional_filter projId dfTied := by
  have hsd : dfTied.Pairwise (fun a b => rowLE a b) := by
    with_unfolding_all decide
  have hs : sortByTime dfTied = dfTied := sortByTime_of_sorted hsd
  have hfix : directional_filter projId dfTied = dfTied := by
    simp only [directional_filter, hs]
    rw [if_pos (by with_unfolding_all decide :
      (dfTied.filter isLat).length = (dfTied.filter isLon).length
        ∧ 3 ≤ (dfTied.filter isLat).length)]
    refine Eq.trans (sortByTime_of_sorted ?_) ?_ <;> with_unfolding_all decide
  have ho : oddSort dfTied = dfTiedSwapped := by simp [oddSort]
  have hnot : mkLat 3 3 ∉ directional_filter_with oddSort projId dfTied := by
    simp only [directional_filter_with, ho]
    rw [if_pos (by with_unfolding_all decide :
      (dfTiedSwapped.filter isLat).length = (dfTiedSwapped.filter isLon).length
        ∧ 3 ≤ (dfTiedSwapped.filter isLat).length)]
    intro hmem
    exact absurd ((oddSort_valid _).1.mem_iff.mp hmem)
      (by with_unfolding_all decide)
  refine ⟨rfl, hfix, (oddSort_valid dfTied).1, (oddSort_valid dfTied).2, ?_, ?_, ?_⟩
  · rw [hfix]; with_unfolding_all decide
  · rw [hfix]; exact hnot
  · intro heq
    apply hnot
    rw [hfix] at heq
    rw [heq]
    with_unfolding_all decide

/-- C8 (amended): under the stable, tie-preserving model of `sort_values`
(`sortByTime`, a stable merge sort) the directional filter is idempotent —
applying it to its own output returns the output exactly, for every
projection and dataframe.  pandas `sort_values` (default quicksort) leaves
the relative order of equal timestamps unspecified, and an admissible
tie-permuting re-sort can re-pair the tied position rows of the first
output and remove further rows (`claim_C8_counterexample`), so the
program's idempotence at tied timestamps depends on the realised tie
order. -/
theorem claim_C8_directional_filter_idempotent
    (proj : ℚ → ℚ → Pt) (df : List Row) :
    directional_filter proj (directional_filter proj df)
      = directional_filter proj df := by
  simp only [directional_filter_eq_spec]
  exact directional_filter_spec_idem proj df

/-- C10: rows on channels other than the two position channels pass through
the directional filter as an unchanged multiset — none added, none removed,
no field altered — and the output is ordered by timestamp. -/
theorem claim_C10_nonposition_rows_preserved
    (proj : ℚ → ℚ → Pt) (df : List Row) :
    ((directional_filter proj df).filter isOther).Perm (df.filter isOther)
    ∧ (directional_filter proj df).Pairwise (fun a b => rowLE a b) :=
  ⟨directional_filter_other_perm proj df, directional_filter_sorted proj df⟩
